import Mathlib

/-!
# Verification of the Excel-to-SQLite crawler (`crawler.py`, `query_data.py`)

A shallow embedding of the ingestion pipeline of the `exp_ru_crauler`
repository: column-name sanitization, cell normalization, the content
hash of a row (`json.dumps(..., sort_keys=True)` followed by MD5),
the per-worksheet deduplicating insert loop, the schema reconciliation
of `create_table_for_sheet`, and the query tool's `execute_query`.

All machine arithmetic of MD5 is carried out on `Nat` with explicit
reduction modulo `2^32`; strings are UTF-8 encoded to byte lists exactly
as Python does before hashing.
-/

namespace Crawler

/-! ## Column-name sanitization (`sanitize_column_name`, crawler.py 52-64) -/

/-- Python's regex class `\w` (Unicode mode), as used in
`re.sub(r'[^\w\d_]', '_', name)`.  Modelled as: ASCII letters and digits,
the underscore, and every non-ASCII code point (Unicode word characters
such as Cyrillic letters; the claims under verification do not depend on
the exact boundary of the Unicode word class outside ASCII). -/
def isWordChar (c : Char) : Bool :=
  c.isAlpha || c.isDigit || c == '_' || 127 < c.toNat

/-- Core of `sanitize_column_name` on character lists:
1. replace every character outside the word class by `'_'`;
2. if the result starts with a digit, prefix `col_`;
3. if the result is empty, use `unnamed_column`. -/
def sanitizeChars (cs : List Char) : List Char :=
  let c1 := cs.map (fun c => if isWordChar c then c else '_')
  let c2 := match c1 with
    | [] => []
    | c :: _ => if c.isDigit then 'c' :: 'o' :: 'l' :: '_' :: c1 else c1
  if c2.isEmpty then "unnamed_column".data else c2

/-- `sanitize_column_name` (crawler.py 52-64). -/
def sanitize_column_name (name : String) : String :=
  String.mk (sanitizeChars name.data)

/-! ## Cell normalization (crawler.py line 158:
`df = df.astype(str).replace('nan', '')`) -/

/-- A source cell as pandas delivers it from `read_excel`: either a value
whose `str()` form is `s` (text, numbers, dates — all rendered by
`astype(str)`), or one of the three distinct missing-value objects of the
pandas stack: float `NaN` (empty cells of non-datetime columns), Python
`None`, and `NaT` (empty cells of datetime columns). -/
inductive Cell where
  | text (s : String)
  | nan
  | pynone
  | naT
  deriving DecidableEq, Repr

/-- `df.astype(str)`: every cell becomes its Python `str()` rendering;
`str(nan) = "nan"`, `str(None) = "None"`, `str(NaT) = "NaT"`. -/
def cellToStr : Cell → String
  | .text s => s
  | .nan => "nan"
  | .pynone => "None"
  | .naT => "NaT"

/-- `df.replace('nan', '')`: pandas `replace` with scalar arguments
substitutes only cells whose entire value equals `'nan'`. -/
def replaceNan (s : String) : String :=
  if s = "nan" then "" else s

/-- The composite normalization applied to every cell before hashing and
storage (crawler.py line 158). -/
def normalizeCell (c : Cell) : String :=
  replaceNan (cellToStr c)

/-! ## JSON serialization of a row (`json.dumps(row_data, sort_keys=True)`,
crawler.py line 116).  `row_data = row.to_dict()` is a mapping from the raw
column label to the cell's text value; we model it as an association list
whose keys are pairwise distinct (a Python dict cannot repeat a key). -/

/-- One row of a worksheet after normalization: the association of each raw
column label with the cell's text value, in source column order. -/
abbrev Row := List (String × String)

/-- Lower-case hexadecimal digit. -/
def hexDigitChar (n : Nat) : Char :=
  if n < 10 then Char.ofNat (48 + n) else Char.ofNat (87 + n % 16)

/-- `\uXXXX` escape of a 16-bit code unit, as emitted by `json.dumps` with
its default `ensure_ascii=True`. -/
def u16Escape (n : Nat) : List Char :=
  ['\\', 'u', hexDigitChar (n / 4096 % 16), hexDigitChar (n / 256 % 16),
   hexDigitChar (n / 16 % 16), hexDigitChar (n % 16)]

/-- Escaping of one character inside a JSON string literal, following
Python's `json.dumps` with `ensure_ascii=True`: `"` and `\` get a
backslash, the named control escapes `\b \t \n \f \r` are used, other
characters outside the printable ASCII range `0x20..0x7e` are `\uXXXX`
escaped (with a surrogate pair above `0xffff`). -/
def jsonEscapeChar (c : Char) : List Char :=
  let n := c.toNat
  if c = '"' then ['\\', '"']
  else if c = '\\' then ['\\', '\\']
  else if n = 8 then ['\\', 'b']
  else if n = 9 then ['\\', 't']
  else if n = 10 then ['\\', 'n']
  else if n = 12 then ['\\', 'f']
  else if n = 13 then ['\\', 'r']
  else if n < 32 then u16Escape n
  else if n < 127 then [c]
  else if n < 65536 then u16Escape n
  else u16Escape (55296 + (n - 65536) / 1024) ++ u16Escape (56320 + (n - 65536) % 1024)

/-- A JSON string literal for `s`. -/
def jsonString (s : String) : String :=
  String.mk ('"' :: (s.data.map jsonEscapeChar).flatten ++ ['"'])

/-- The keys of the row mapping in ascending order (`sort_keys=True`). -/
def sortedKeys (row : Row) : List String :=
  (row.map Prod.fst).insertionSort (· ≤ ·)

/-- The value the dict associates with key `k` (total on the keys of the
row; the default is irrelevant since every sorted key occurs). -/
def lookupVal (k : String) (row : Row) : String :=
  (List.lookup k row).getD ""

/-- `json.dumps(row_data, sort_keys=True)` with the default separators:
`\x7b"k1": "v1", "k2": "v2"\x7d`, keys in ascending order. -/
def serializeRow (row : Row) : String :=
  "\x7b" ++
    String.intercalate ", "
      ((sortedKeys row).map (fun k => jsonString k ++ ": " ++ jsonString (lookupVal k row))) ++
  "\x7d"

/-! ## MD5 (`hashlib.md5(...).hexdigest()`, crawler.py line 117),
RFC 1321, on `Nat` with explicit reduction modulo `2^32`. -/

/-- `2^32`. -/
def M32 : Nat := 4294967296

/-- 32-bit complement of a word `< 2^32`. -/
def not32 (a : Nat) : Nat := a ^^^ 4294967295

/-- Left rotation of a 32-bit word by `n < 32` bits. -/
def rotl32 (x n : Nat) : Nat :=
  ((x <<< n) ||| (x >>> (32 - n))) % M32

/-- The MD5 sine-derived constant table `K`. -/
def mdK : List Nat :=
  [0xd76aa478, 0xe8c7b756, 0x242070db, 0xc1bdceee,
   0xf57c0faf, 0x4787c62a, 0xa8304613, 0xfd469501,
   0x698098d8, 0x8b44f7af, 0xffff5bb1, 0x895cd7be,
   0x6b901122, 0xfd987193, 0xa679438e, 0x49b40821,
   0xf61e2562, 0xc040b340, 0x265e5a51, 0xe9b6c7aa,
   0xd62f105d, 0x02441453, 0xd8a1e681, 0xe7d3fbc8,
   0x21e1cde6, 0xc33707d6, 0xf4d50d87, 0x455a14ed,
   0xa9e3e905, 0xfcefa3f8, 0x676f02d9, 0x8d2a4c8a,
   0xfffa3942, 0x8771f681, 0x6d9d6122, 0xfde5380c,
   0xa4beea44, 0x4bdecfa9, 0xf6bb4b60, 0xbebfbc70,
   0x289b7ec6, 0xeaa127fa, 0xd4ef3085, 0x04881d05,
   0xd9d4d039, 0xe6db99e5, 0x1fa27cf8, 0xc4ac5665,
   0xf4292244, 0x432aff97, 0xab9423a7, 0xfc93a039,
   0x655b59c3, 0x8f0ccc92, 0xffeff47d, 0x85845dd1,
   0x6fa87e4f, 0xfe2ce6e0, 0xa3014314, 0x4e0811a1,
   0xf7537e82, 0xbd3af235, 0x2ad7d2bb, 0xeb86d391]

/-- The MD5 per-round left-rotation amounts. -/
def mdS : List Nat :=
  [7, 12, 17, 22, 7, 12, 17, 22, 7, 12, 17, 22, 7, 12, 17, 22,
   5, 9, 14, 20, 5, 9, 14, 20, 5, 9, 14, 20, 5, 9, 14, 20,
   4, 11, 16, 23, 4, 11, 16, 23, 4, 11, 16, 23, 4, 11, 16, 23,
   6, 10, 15, 21, 6, 10, 15, 21, 6, 10, 15, 21, 6, 10, 15, 21]

/-- The four bytes of a 32-bit word, little-endian. -/
def leBytes4 (x : Nat) : List Nat :=
  [x % 256, x / 256 % 256, x / 65536 % 256, x / 16777216 % 256]

/-- The eight bytes of a 64-bit word, little-endian. -/
def leBytes8 (x : Nat) : List Nat :=
  leBytes4 (x % M32) ++ leBytes4 (x / M32)

/-- MD5 padding: append `0x80`, then zero bytes until the length is
`≡ 56 (mod 64)`, then the original length in bits as a 64-bit
little-endian word. -/
def md5Pad (msg : List Nat) : List Nat :=
  let z := (119 - msg.length % 64) % 64
  msg ++ 128 :: List.replicate z 0 ++ leBytes8 (msg.length * 8 % 18446744073709551616)

/-- Word `j` (little-endian) of a 64-byte chunk. -/
def leWord (chunk : List Nat) (j : Nat) : Nat :=
  chunk.getD (4 * j) 0 + 256 * chunk.getD (4 * j + 1) 0 +
    65536 * chunk.getD (4 * j + 2) 0 + 16777216 * chunk.getD (4 * j + 3) 0

/-- One of the 64 MD5 rounds: `m` gives the chunk's words, `i` is the
round index. -/
def md5Round (m : Nat → Nat) (st : Nat × Nat × Nat × Nat) (i : Nat) :
    Nat × Nat × Nat × Nat :=
  let a := st.1
  let b := st.2.1
  let c := st.2.2.1
  let d := st.2.2.2
  let fg : Nat × Nat :=
    if i < 16 then ((b &&& c) ||| (not32 b &&& d), i)
    else if i < 32 then ((d &&& b) ||| (not32 d &&& c), (5 * i + 1) % 16)
    else if i < 48 then (b ^^^ c ^^^ d, (3 * i + 5) % 16)
    else (c ^^^ (b ||| not32 d), 7 * i % 16)
  let f := (fg.1 + a + mdK.getD i 0 + m fg.2) % M32
  (d, (b + rotl32 f (mdS.getD i 0)) % M32, b, c)

/-- Process one 64-byte chunk, adding the mixed state back into the
running state (all modulo `2^32`). -/
def md5Compress (chunk : List Nat) (st : Nat × Nat × Nat × Nat) :
    Nat × Nat × Nat × Nat :=
  let r := (List.range 64).foldl (md5Round (leWord chunk)) st
  ((st.1 + r.1) % M32, (st.2.1 + r.2.1) % M32,
   (st.2.2.1 + r.2.2.1) % M32, (st.2.2.2 + r.2.2.2) % M32)

/-- Fold `md5Compress` over the message, 64 bytes at a time; the fuel
argument (instantiated with the byte count, an upper bound on the number
of chunks) makes the recursion structural. -/
def md5ChunksAux : Nat → List Nat → Nat × Nat × Nat × Nat → Nat × Nat × Nat × Nat
  | _, [], st => st
  | 0, _ :: _, st => st
  | fuel + 1, b :: bs, st =>
    md5ChunksAux fuel ((b :: bs).drop 64) (md5Compress ((b :: bs).take 64) st)

/-- Fold `md5Compress` over the padded message, 64 bytes at a time. -/
def md5Chunks (bytes : List Nat) (st : Nat × Nat × Nat × Nat) :
    Nat × Nat × Nat × Nat :=
  md5ChunksAux bytes.length bytes st

/-- The MD5 initial state. -/
def md5Init : Nat × Nat × Nat × Nat :=
  (0x67452301, 0xefcdab89, 0x98badcfe, 0x10325476)

/-- The 16-byte MD5 digest of a byte sequence. -/
def md5Bytes (msg : List Nat) : List Nat :=
  let st := md5Chunks (md5Pad msg) md5Init
  leBytes4 st.1 ++ leBytes4 st.2.1 ++ leBytes4 st.2.2.1 ++ leBytes4 st.2.2.2

/-- Two lower-case hex characters for one byte. -/
def byteHexChars (b : Nat) : List Char :=
  [hexDigitChar (b / 16 % 16), hexDigitChar (b % 16)]

/-- `hashlib.md5(bytes).hexdigest()`: the 32-character lower-case hex
rendering of the digest. -/
def md5Hex (msg : List Nat) : String :=
  String.mk ((md5Bytes msg).map byteHexChars).flatten

/-- UTF-8 encoding of one character (`str.encode('utf-8')`). -/
def utf8EncodeChar (c : Char) : List Nat :=
  let n := c.toNat
  if n < 128 then [n]
  else if n < 2048 then [192 + n / 64, 128 + n % 64]
  else if n < 65536 then [224 + n / 4096, 128 + n / 64 % 64, 128 + n % 64]
  else [240 + n / 262144, 128 + n / 4096 % 64, 128 + n / 64 % 64, 128 + n % 64]

/-- UTF-8 encoding of a string as a byte list. -/
def utf8Bytes (s : String) : List Nat :=
  (s.data.map utf8EncodeChar).flatten

/-- `calculate_row_hash` (crawler.py 112-117):
`hashlib.md5(json.dumps(row_data, sort_keys=True).encode('utf-8')).hexdigest()`. -/
def calculate_row_hash (row : Row) : String :=
  md5Hex (utf8Bytes (serializeRow row))

/-! ## The deduplicating insert loop of `process_excel_file`
(crawler.py 128-210).

The SQLite table for one worksheet ordinal is modelled as the list of its
stored records in insertion order.  The single connection means the
`SELECT COUNT(*)` of `is_duplicate` observes rows inserted earlier in the
same (not yet committed) transaction, so the working list plays the role
of the table as that connection sees it; `conn.commit()` at the end of
the sheet loop (line 201) makes the final list the durable table.  A
failing `cursor.execute` of the `INSERT` is caught per row (lines
183-199): in SQLite only the failing statement is undone, the transaction
survives, and the loop continues, so a failure is modelled by an oracle
`fail : Row → Bool` saying which row inserts raise. -/

/-- One record of a `sheet_<i>` table: originating file name, content
hash, and the dynamic column values in column order (the surrogate `id`
is determined by the position in the list). -/
structure StoredRow where
  file_name : String
  row_hash : String
  vals : List String
  deriving DecidableEq, Repr

/-- The record inserted for one worksheet row (crawler.py 185-196):
`file_name`, the row's hash, and the row's values in `df.columns`
order. -/
def mkStored (fname : String) (row : Row) : StoredRow :=
  ⟨fname, calculate_row_hash row, row.map Prod.snd⟩

/-- `is_duplicate` (crawler.py 119-126):
`SELECT COUNT(*) FROM table WHERE row_hash = ?` is positive. -/
def is_duplicate (table : List StoredRow) (h : String) : Bool :=
  0 < table.countP (fun r => r.row_hash == h)

/-- The row loop of `process_excel_file` (crawler.py 172-199): for each
row, bump `rows_total`, hash it, skip it if the hash is already in the
table as seen by this connection; otherwise attempt the insert, which
either fails (logged, row skipped) or appends the record and bumps
`rows_added`.  Returns the table as committed at line 201 together with
`(rows_total, rows_added)`. -/
def processRows (fname : String) (fail : Row → Bool) :
    List Row → List StoredRow → Nat → Nat → List StoredRow × Nat × Nat
  | [], table, tot, added => (table, tot, added)
  | row :: rest, table, tot, added =>
    if is_duplicate table (calculate_row_hash row) then
      processRows fname fail rest table (tot + 1) added
    else if fail row then
      processRows fname fail rest table (tot + 1) added
    else
      processRows fname fail rest (table ++ [mkStored fname row]) (tot + 1) (added + 1)

/-- The records the row loop appends to the table: exactly the rows whose
hash was not yet present when they were reached and whose insert did not
fail, in source order. -/
def insertedRows (fname : String) (fail : Row → Bool) :
    List Row → List StoredRow → List StoredRow
  | [], _ => []
  | row :: rest, table =>
    if is_duplicate table (calculate_row_hash row) then
      insertedRows fname fail rest table
    else if fail row then
      insertedRows fname fail rest table
    else
      mkStored fname row :: insertedRows fname fail rest (table ++ [mkStored fname row])

/-- One worksheet as `process_excel_file` sees it after `pd.read_excel`:
the raw column labels (`df.columns`) and the grid of cells. -/
structure Sheet where
  cols : List String
  cells : List (List Cell)
  deriving Repr

/-- The rows of a sheet as dictionaries (crawler.py 158 and 176): every
cell normalized by `astype(str).replace('nan','')`, then associated with
its raw column label. -/
def sheetRows (sh : Sheet) : List Row :=
  sh.cells.map (fun cs => sh.cols.zip (cs.map normalizeCell))

/-- Processing of one worksheet against its ordinal's table
(crawler.py 148-201): an empty sheet is skipped (line 153), otherwise the
row loop runs and its result is committed. -/
def process_sheet (fname : String) (fail : Row → Bool) (sh : Sheet)
    (table : List StoredRow) : List StoredRow × Nat × Nat :=
  if sh.cells.isEmpty then (table, 0, 0)
  else processRows fname fail (sheetRows sh) table 0 0

/-! ## Schema reconciliation (`create_table_for_sheet`, crawler.py 66-110),
branch for an already-existing table (lines 94-108). -/

/-- The fixed system columns every sheet table carries. -/
def systemCols : List String := ["id", "file_name", "row_hash"]

/-- The SQL double-quoting applied when a column name is interpolated,
`f'"\x7bcol\x7d"'`. -/
def quoteIdent (s : String) : String := "\"" ++ s ++ "\""

/-- Line 97: the existing column names reported by
`PRAGMA table_info`, minus `id`, `file_name`, `row_hash`. -/
def existingColumns (tableCols : List String) : List String :=
  tableCols.filter (fun c => !systemCols.contains c)

/-- Line 100: `[col for col in columns if f'"\x7bcol\x7d"' not in
existing_columns]` — note that each candidate is compared in its
double-quoted form against the unquoted names of line 97. -/
def new_columns (columns existing : List String) : List String :=
  columns.filter (fun col => !existing.contains (quoteIdent col))

/-- `ALTER TABLE ... ADD COLUMN "col" TEXT` (line 105): SQLite rejects a
duplicate column name; the exception is caught and logged (lines
107-108), leaving the table unchanged. -/
def addColumn (tableCols : List String) (col : String) : List String :=
  if tableCols.contains col then tableCols else tableCols ++ [col]

/-- The existing-table branch of `create_table_for_sheet` (lines 94-108):
sanitize the sheet's labels (line 73), read the current columns, compute
the (mis-quoted) new-column list, and attempt each `ALTER TABLE`.
`tableCols` is the table's full column list including the system
columns. -/
def create_table_for_sheet_existing (tableCols : List String)
    (sheetCols : List String) : List String :=
  let columns := sheetCols.map sanitize_column_name
  (new_columns columns (existingColumns tableCols)).foldl addColumn tableCols

/-! ## The query tool's `execute_query` (query_data.py 58-95). -/

/-- One stored table as the query tool sees it: its full column list and
its rows, each row a mapping from column name to text value. -/
structure QTable where
  cols : List String
  rows : List (List (String × String))
  deriving Repr

/-- Whether one stored row matches the filter (query_data.py 76-80):
exact equality of the column's value, or SQLite
`LIKE '%value%'` — containment of the search value in the column's
value (modelled case-sensitively; the claims do not involve letter
case). -/
def rowMatches (column_name search_value : String) (exact : Bool)
    (r : List (String × String)) : Bool :=
  let v := (List.lookup column_name r).getD ""
  if exact then v == search_value
  else decide (List.IsInfix search_value.data v.data)

/-- `execute_query` (query_data.py 58-95): `none` when the table is
absent from `sqlite_master` (line 64), `none` when the column is not in
`PRAGMA table_info` (line 71), the matching rows as a dataframe when at
least one row matches, and `none` when `rows` is empty (line 92). -/
def execute_query (db : List (String × QTable))
    (table_name column_name search_value : String) (exact : Bool) :
    Option (List (List (String × String))) :=
  match List.lookup table_name db with
  | none => none
  | some t =>
    if column_name ∈ t.cols then
      let rows := t.rows.filter (rowMatches column_name search_value exact)
      if rows.isEmpty then none else some rows
    else none

/-! ## Lemmas about sanitization -/

lemma mapped_char_word (a : Char) :
    isWordChar (if isWordChar a then a else '_') = true := by
  by_cases h : isWordChar a
  · simp [h]
  · rw [if_neg h]; decide

lemma sanitizeChars_nil : sanitizeChars [] = "unnamed_column".data := rfl

lemma sanitizeChars_cons (a : Char) (as : List Char) :
    sanitizeChars (a :: as) =
      (let b := if isWordChar a then a else '_'
       let c1 := b :: as.map (fun c => if isWordChar c then c else '_')
       if b.isDigit then 'c' :: 'o' :: 'l' :: '_' :: c1 else c1) := by
  by_cases hd : (if isWordChar a then a else '_').isDigit <;>
    simp [sanitizeChars, hd]

/-- The three structural facts behind sanitization totality, on character
lists: the output is non-empty, made of word-class characters only, and
does not begin with a digit. -/
lemma sanitizeChars_props (cs : List Char) :
    (sanitizeChars cs).isEmpty = false ∧ (sanitizeChars cs).all isWordChar = true ∧
      ((sanitizeChars cs).head?.any Char.isDigit) = false := by
  cases cs with
  | nil => rw [sanitizeChars_nil]; decide
  | cons a as =>
    rw [sanitizeChars_cons]
    have htail : (as.map (fun c => if isWordChar c then c else '_')).all isWordChar = true := by
      rw [List.all_eq_true]
      intro c hc
      rcases List.mem_map.mp hc with ⟨x, _, rfl⟩
      exact mapped_char_word x
    by_cases hd : (if isWordChar a then a else '_').isDigit
    · simp only [hd, if_true]
      refine ⟨by simp, ?_, by rw [List.head?_cons]; decide⟩
      simp only [List.all_cons, htail, mapped_char_word a]
      decide
    · simp only [hd, if_false]
      exact ⟨by simp, by simp [List.all_cons, htail, mapped_char_word a],
        by simp [hd]⟩

/-- Sanitized output is fixed by a second sanitization pass: all its
characters are word-class, it is non-empty, and its head is not a
digit, so each of the three steps is the identity on it. -/
lemma sanitizeChars_idem (cs : List Char) :
    sanitizeChars (sanitizeChars cs) = sanitizeChars cs := by
  obtain ⟨hne, hall, hhead⟩ := sanitizeChars_props cs
  rw [List.all_eq_true] at hall
  have hmap : (sanitizeChars cs).map (fun c => if isWordChar c then c else '_') =
      sanitizeChars cs := by
    have hid : ∀ c ∈ sanitizeChars cs, (if isWordChar c then c else '_') = id c :=
      fun c hc => if_pos (hall c hc)
    rw [List.map_congr_left hid, List.map_id]
  cases hr : sanitizeChars cs with
  | nil => rw [hr] at hne; simp at hne
  | cons a t =>
    rw [hr] at hmap hhead
    rw [List.map_cons] at hmap
    have haw : isWordChar a = true := hall a (hr ▸ List.mem_cons_self a t)
    have had : a.isDigit = false := by simpa using hhead
    have htl : t.map (fun c => if isWordChar c then c else '_') = t :=
      (List.cons.injEq _ _ _ _ ▸ hmap).2
    rw [sanitizeChars_cons]
    simp [haw, had, htl]

/-- C7.  Column-label sanitization is total and identifier-safe: for
every input label the result is non-empty, consists of word-class
characters only, and does not start with a digit; the empty label maps
to the fixed placeholder `unnamed_column`. -/
theorem sanitize_column_name_total (name : String) :
    (sanitize_column_name name).data.isEmpty = false ∧
    (sanitize_column_name name).data.all isWordChar = true ∧
    ((sanitize_column_name name).data.head?.any Char.isDigit) = false ∧
    sanitize_column_name "" = "unnamed_column" :=
  ⟨(sanitizeChars_props name.data).1, (sanitizeChars_props name.data).2.1,
    (sanitizeChars_props name.data).2.2, rfl⟩

/-- C10.  Sanitization is idempotent:
`sanitize_column_name (sanitize_column_name x) = sanitize_column_name x`
for every label `x`. -/
theorem sanitize_column_name_idempotent (name : String) :
    sanitize_column_name (sanitize_column_name name) = sanitize_column_name name :=
  congrArg String.mk (sanitizeChars_idem name.data)

/-! ## Lemmas about the row hash -/

lemma lookup_cons_eq (a k b : String) (es : List (String × String)) :
    List.lookup a ((k, b) :: es) = if a = k then some b else List.lookup a es := by
  show (match a == k with
    | true => some b
    | false => List.lookup a es) = _
  cases h : a == k
  · rw [if_neg (by simpa using h)]
  · rw [if_pos (by simpa using h)]

/-- Looking a key up in an association list with pairwise-distinct keys is
invariant under permutation of the entries. -/
lemma lookup_eq_of_perm (k : String) :
    ∀ {l₁ l₂ : List (String × String)}, l₁.Perm l₂ →
      (l₁.map Prod.fst).Nodup → List.lookup k l₁ = List.lookup k l₂ := by
  intro l₁ l₂ hp
  induction hp with
  | nil => intro _; rfl
  | cons p hp ih =>
    intro hnd
    obtain ⟨k1, v1⟩ := p
    rw [lookup_cons_eq, lookup_cons_eq]
    rw [List.map_cons, List.nodup_cons] at hnd
    by_cases h : k = k1
    · rw [if_pos h, if_pos h]
    · rw [if_neg h, if_neg h, ih hnd.2]
  | swap p q l =>
    intro hnd
    obtain ⟨k1, v1⟩ := p
    obtain ⟨k2, v2⟩ := q
    simp only [List.map_cons, List.nodup_cons, List.mem_cons] at hnd
    have hne : k2 ≠ k1 := fun h => hnd.1 (Or.inl h)
    rw [lookup_cons_eq, lookup_cons_eq, lookup_cons_eq, lookup_cons_eq]
    by_cases h1 : k = k1 <;> by_cases h2 : k = k2
    · exact absurd (h2.symm.trans h1) hne
    · rw [if_neg h2, if_pos h1, if_pos h1]
    · rw [if_pos h2, if_neg h1, if_pos h2]
    · rw [if_neg h2, if_neg h1, if_neg h1, if_neg h2]
  | trans h12 h23 ih12 ih23 =>
    intro hnd
    have hnd2 := ((h12.map Prod.fst).nodup_iff).mp hnd
    rw [ih12 hnd, ih23 hnd2]

/-- The sorted key list of a dict does not depend on the order in which
the entries are listed. -/
lemma sortedKeys_perm_eq {r₁ r₂ : Row} (h : r₁.Perm r₂) :
    sortedKeys r₁ = sortedKeys r₂ := by
  have hk : (r₁.map Prod.fst).Perm (r₂.map Prod.fst) := h.map Prod.fst
  exact List.eq_of_perm_of_sorted
    (((List.perm_insertionSort _ _).trans hk).trans (List.perm_insertionSort _ _).symm)
    (List.sorted_insertionSort _ _) (List.sorted_insertionSort _ _)

/-- The canonical serialization is invariant under reordering of the
row's entries. -/
lemma serializeRow_perm {r₁ r₂ : Row} (h : r₁.Perm r₂)
    (hnd : (r₁.map Prod.fst).Nodup) : serializeRow r₁ = serializeRow r₂ := by
  have hv : ∀ k, lookupVal k r₁ = lookupVal k r₂ := fun k => by
    unfold lookupVal; rw [lookup_eq_of_perm k h hnd]
  unfold serializeRow
  rw [sortedKeys_perm_eq h]
  simp only [hv]

lemma flatten_byteHex_length (l : List Nat) :
    ((l.map byteHexChars).flatten).length = 2 * l.length := by
  induction l with
  | nil => rfl
  | cons b bs ih => simp [byteHexChars, ih]; omega

lemma md5Bytes_length (msg : List Nat) : (md5Bytes msg).length = 16 := by
  simp [md5Bytes, leBytes4]

/-- Every MD5 hex digest has exactly 32 characters. -/
lemma md5Hex_length (msg : List Nat) : (md5Hex msg).length = 32 := by
  show ((md5Bytes msg).map byteHexChars).flatten.length = 32
  rw [flatten_byteHex_length, md5Bytes_length]

/-- C4.  The row hash is independent of column order: hashing any
permutation of a row mapping (with its pairwise-distinct keys) yields the
same digest, and the digest is a fixed-length (32 hex character)
string.  Determinism across runs is inherent: `calculate_row_hash` is a
pure function of the mapping. -/
theorem row_hash_order_independent (r₁ r₂ : Row) (hperm : r₁.Perm r₂)
    (hnd : (r₁.map Prod.fst).Nodup) :
    calculate_row_hash r₁ = calculate_row_hash r₂ ∧
      (calculate_row_hash r₁).length = 32 :=
  ⟨congrArg (fun s => md5Hex (utf8Bytes s)) (serializeRow_perm hperm hnd),
    md5Hex_length _⟩

/-- Witness for C4 at a concrete two-column row and its transposition. -/
theorem row_hash_order_independent_witness :
    calculate_row_hash [("b", "2"), ("a", "1")] =
        calculate_row_hash [("a", "1"), ("b", "2")] ∧
      (calculate_row_hash [("b", "2"), ("a", "1")]).length = 32 :=
  row_hash_order_independent _ _ (by decide) (by decide)

/-! ## Lemmas about the deduplicating insert loop -/

/-- The loop only ever appends to the table, and it returns the appended
records, the row count and the added count, linking the stateful loop to
the pure description `insertedRows`. -/
lemma processRows_eq (fname : String) (fail : Row → Bool) :
    ∀ (rows : List Row) (table : List StoredRow) (tot added : Nat),
    processRows fname fail rows table tot added =
      (table ++ insertedRows fname fail rows table, tot + rows.length,
        added + (insertedRows fname fail rows table).length) := by
  intro rows
  induction rows with
  | nil => intro table tot added; simp [processRows, insertedRows]
  | cons row rest ih =>
    intro table tot added
    simp only [processRows, insertedRows]
    by_cases hd : is_duplicate table (calculate_row_hash row)
    · rw [if_pos hd, if_pos hd, ih]
      refine congrArg₂ _ rfl (congrArg₂ _ (by simp; omega) (by simp))
    · rw [if_neg hd, if_neg hd]
      by_cases hf : fail row
      · rw [if_pos hf, if_pos hf, ih]
        refine congrArg₂ _ rfl (congrArg₂ _ (by simp; omega) (by simp))
      · rw [if_neg hf, if_neg hf, ih]
        refine congrArg₂ _ ?_ (congrArg₂ _ (by simp; omega) (by simp; omega))
        simp

lemma is_duplicate_append (t u : List StoredRow) (h : String) :
    is_duplicate (t ++ u) h = (is_duplicate t h || is_duplicate u h) := by
  simp [is_duplicate, List.countP_append]

lemma is_duplicate_mono {t : List StoredRow} {h : String} (u : List StoredRow)
    (hd : is_duplicate t h = true) : is_duplicate (t ++ u) h = true := by
  rw [is_duplicate_append, hd, Bool.true_or]

lemma is_duplicate_mkStored (t : List StoredRow) (fname : String) (row : Row) :
    is_duplicate (t ++ [mkStored fname row]) (calculate_row_hash row) = true := by
  rw [is_duplicate_append, Bool.or_eq_true]
  right
  simp [is_duplicate, mkStored, List.countP_cons]

/-- With no insert failures, after the loop every row's hash is present in
the resulting table. -/
lemma processRows_hash_present (fname : String) :
    ∀ (rows : List Row) (table : List StoredRow) (tot added : Nat),
      ∀ r ∈ rows,
        is_duplicate
          (processRows fname (fun _ => false) rows table tot added).1
          (calculate_row_hash r) = true := by
  intro rows
  induction rows with
  | nil => intro table tot added r hr; cases hr
  | cons row rest ih =>
    intro table tot added r hr
    simp only [processRows]
    by_cases hd : is_duplicate table (calculate_row_hash row)
    · rw [if_pos hd]
      rcases List.mem_cons.mp hr with rfl | hr2
      · rw [processRows_eq]
        exact is_duplicate_mono _ hd
      · exact ih table (tot + 1) added r hr2
    · rw [if_neg hd]
      simp only [Bool.false_eq_true, if_false]
      rcases List.mem_cons.mp hr with rfl | hr2
      · rw [processRows_eq]
        exact is_duplicate_mono _ (is_duplicate_mkStored table fname r)
      · exact ih (table ++ [mkStored fname row]) (tot + 1) (added + 1) r hr2

/-- When every row's hash is already in the table, the loop adds nothing:
the table is returned unchanged, `rows_total` counts all rows, and
`rows_added` stays put — whatever the failure oracle does. -/
lemma processRows_all_dup (fname : String) (fail : Row → Bool) :
    ∀ (rows : List Row) (table : List StoredRow) (tot added : Nat),
      (∀ r ∈ rows, is_duplicate table (calculate_row_hash r) = true) →
      processRows fname fail rows table tot added =
        (table, tot + rows.length, added) := by
  intro rows
  induction rows with
  | nil => intro table tot added _; simp [processRows]
  | cons row rest ih =>
    intro table tot added hall
    simp only [processRows]
    rw [if_pos (hall row (List.mem_cons_self row rest))]
    rw [ih table (tot + 1) added (fun r hr => hall r (List.mem_cons_of_mem row hr))]
    refine congrArg₂ _ rfl (congrArg₂ _ (by simp; omega) rfl)

/-- The loop over `xs ++ ys` is the loop over `xs` followed by the loop
over `ys` from the intermediate state (the duplicate check runs on the
same connection and therefore sees the rows inserted for `xs`). -/
lemma processRows_append (fname : String) (fail : Row → Bool) :
    ∀ (xs ys : List Row) (table : List StoredRow) (tot added : Nat),
      processRows fname fail (xs ++ ys) table tot added =
        (let m := processRows fname fail xs table tot added
         processRows fname fail ys m.1 m.2.1 m.2.2) := by
  intro xs
  induction xs with
  | nil => intro ys table tot added; simp [processRows]
  | cons x xs ih =>
    intro ys table tot added
    simp only [List.cons_append, processRows, List.append_eq]
    by_cases hd : is_duplicate table (calculate_row_hash x)
    · rw [if_pos hd, if_pos hd, ih]
    · rw [if_neg hd, if_neg hd]
      by_cases hf : fail x
      · rw [if_pos hf, if_pos hf, ih]
      · rw [if_neg hf, if_neg hf, ih]

/-- Every record the loop inserts comes from a worksheet row whose insert
did not fail. -/
lemma insertedRows_sound (fname : String) (fail : Row → Bool) :
    ∀ (rows : List Row) (table : List StoredRow),
      ∀ s ∈ insertedRows fname fail rows table,
        ∃ row ∈ rows, fail row = false ∧ s = mkStored fname row := by
  intro rows
  induction rows with
  | nil => intro table s hs; cases hs
  | cons row rest ih =>
    intro table s hs
    simp only [insertedRows] at hs
    by_cases hd : is_duplicate table (calculate_row_hash row)
    · rw [if_pos hd] at hs
      obtain ⟨r, hr, hf, he⟩ := ih table s hs
      exact ⟨r, List.mem_cons_of_mem row hr, hf, he⟩
    · rw [if_neg hd] at hs
      by_cases hf : fail row
      · rw [if_pos hf] at hs
        obtain ⟨r, hr, hfr, he⟩ := ih table s hs
        exact ⟨r, List.mem_cons_of_mem row hr, hfr, he⟩
      · rw [if_neg hf] at hs
        rcases List.mem_cons.mp hs with rfl | hs2
        · exact ⟨row, List.mem_cons_self row rest, Bool.of_not_eq_true hf ▸ rfl, rfl⟩
        · obtain ⟨r, hr, hfr, he⟩ := ih (table ++ [mkStored fname row]) s hs2
          exact ⟨r, List.mem_cons_of_mem row hr, hfr, he⟩


set_option maxRecDepth 100000

/-- Second ingestion of the same worksheet into the table produced by a
first, failure-free ingestion: nothing is added and the table is
unchanged, whatever the second run's failure oracle does. -/
lemma second_run_no_op (fname1 fname2 : String) (fail2 : Row → Bool)
    (sh : Sheet) (table : List StoredRow) :
    (process_sheet fname2 fail2 sh
        (process_sheet fname1 (fun _ => false) sh table).1).2.2 = 0 ∧
      (process_sheet fname2 fail2 sh
          (process_sheet fname1 (fun _ => false) sh table).1).1 =
        (process_sheet fname1 (fun _ => false) sh table).1 := by
  unfold process_sheet
  by_cases he : sh.cells.isEmpty
  · rw [if_pos he]
    exact ⟨rfl, rfl⟩
  · simp only [if_neg he]
    rw [processRows_all_dup fname2 fail2 (sheetRows sh) _ 0 0
      (fun r hr => processRows_hash_present fname1 (sheetRows sh) table 0 0 r hr)]
    exact ⟨rfl, rfl⟩

/-- A fresh row is stored by a single-row worksheet ingestion. -/
lemma single_row_insert (f1 : String) (cols : List String) (cs : List Cell)
    (table : List StoredRow)
    (hnew : is_duplicate table
      (calculate_row_hash (cols.zip (cs.map normalizeCell))) = false) :
    process_sheet f1 (fun _ => false) ⟨cols, [cs]⟩ table =
      (table ++ [mkStored f1 (cols.zip (cs.map normalizeCell))], 1, 1) := by
  unfold process_sheet sheetRows
  simp only [List.isEmpty_cons, List.map_cons, List.map_nil]
  rw [if_neg (by simp)]
  simp only [processRows, hnew, Bool.false_eq_true, if_false]


/-- C1, counterexample.  Worksheet with two rows where the second row's
insert raises: the loop logs and skips only that row, and the commit at
the end of the sheet keeps the first row — `rows_total = 2`,
`rows_added = 1`, and the committed table is *not* the pre-worksheet
(empty) state, contradicting the claimed rollback. -/
theorem insert_error_partial_commit_cex :
    ((process_sheet "a.xlsx" (fun row => row == [("a", "2")])
        ⟨["a"], [[Cell.text "1"], [Cell.text "2"]]⟩ []).2.1 = 2) ∧
    ((process_sheet "a.xlsx" (fun row => row == [("a", "2")])
        ⟨["a"], [[Cell.text "1"], [Cell.text "2"]]⟩ []).2.2 = 1) ∧
    ((process_sheet "a.xlsx" (fun row => row == [("a", "2")])
        ⟨["a"], [[Cell.text "1"], [Cell.text "2"]]⟩ []).1 ≠ []) := by decide

/-- C1, amended.  An insert error mid-worksheet rolls nothing back: the
committed table is the pre-worksheet table followed by exactly the
worksheet rows that were new and whose insert did not fail (in source
order), and `rows_added` counts precisely those rows. -/
theorem insert_error_skip_and_commit (fname : String) (fail : Row → Bool)
    (sh : Sheet) (table : List StoredRow) :
    (process_sheet fname fail sh table).1 =
        table ++ insertedRows fname fail (sheetRows sh) table ∧
      (process_sheet fname fail sh table).2.2 =
        (insertedRows fname fail (sheetRows sh) table).length := by
  unfold process_sheet
  by_cases he : sh.cells.isEmpty
  · rw [if_pos he]
    have hrows : sheetRows sh = [] := by
      unfold sheetRows
      rw [List.isEmpty_iff] at he
      rw [he, List.map_nil]
    rw [hrows]
    exact ⟨by simp [insertedRows], by simp [insertedRows]⟩
  · rw [if_neg he, processRows_eq]
    exact ⟨rfl, by simp⟩

/-- C2.  Content idempotence: re-ingesting a worksheet into the table left
by a first failure-free ingestion adds zero rows and leaves the table
unchanged — every row's hash is already present, so every duplicate check
hits. -/
theorem ingest_idempotent (fname1 fname2 : String) (fail2 : Row → Bool)
    (sh : Sheet) (table : List StoredRow) :
    (process_sheet fname2 fail2 sh
        (process_sheet fname1 (fun _ => false) sh table).1).2.2 = 0 ∧
      (process_sheet fname2 fail2 sh
          (process_sheet fname1 (fun _ => false) sh table).1).1 =
        (process_sheet fname1 (fun _ => false) sh table).1 :=
  second_run_no_op fname1 fname2 fail2 sh table

/-- C5, counterexample.  Two files whose worksheet holds one row of
identical content: after ingesting both, the table holds ONE record (the
claim demands two distinct records), and it carries the first file's
name — the duplicate check is content-based across files. -/
theorem dedup_across_files_cex :
    ((process_sheet "B.xlsx" (fun _ => false) ⟨["a"], [[Cell.text "1"]]⟩
        (process_sheet "A.xlsx" (fun _ => false)
          ⟨["a"], [[Cell.text "1"]]⟩ []).1).1).length = 1 ∧
    ((process_sheet "B.xlsx" (fun _ => false) ⟨["a"], [[Cell.text "1"]]⟩
        (process_sheet "A.xlsx" (fun _ => false)
          ⟨["a"], [[Cell.text "1"]]⟩ []).1).1).map
        StoredRow.file_name = ["A.xlsx"] := by decide

/-- C5, amended.  For two files with single-row worksheets of identical
content (the content new to the table), only the first file's row is
stored; the second file's identical row is recognized as a duplicate by
its content hash and skipped, adding zero rows. -/
theorem dedup_across_files (f1 f2 : String) (cols : List String)
    (cs : List Cell) (table : List StoredRow)
    (hnew : is_duplicate table
      (calculate_row_hash (cols.zip (cs.map normalizeCell))) = false) :
    (process_sheet f1 (fun _ => false) ⟨cols, [cs]⟩ table).1 =
        table ++ [mkStored f1 (cols.zip (cs.map normalizeCell))] ∧
      (process_sheet f2 (fun _ => false) ⟨cols, [cs]⟩
          (process_sheet f1 (fun _ => false) ⟨cols, [cs]⟩ table).1).1 =
        (process_sheet f1 (fun _ => false) ⟨cols, [cs]⟩ table).1 ∧
      (process_sheet f2 (fun _ => false) ⟨cols, [cs]⟩
          (process_sheet f1 (fun _ => false) ⟨cols, [cs]⟩ table).1).2.2 = 0 := by
  refine ⟨?_, (second_run_no_op f1 f2 (fun _ => false) ⟨cols, [cs]⟩ table).2,
    (second_run_no_op f1 f2 (fun _ => false) ⟨cols, [cs]⟩ table).1⟩
  rw [single_row_insert f1 cols cs table hnew]

/-- Witness for C5 (amended) at a concrete one-column, one-row sheet. -/
theorem dedup_across_files_witness :
    (process_sheet "A1.xlsx" (fun _ => false) ⟨["c"], [[Cell.text "v"]]⟩ []).1 =
        [] ++ [mkStored "A1.xlsx" (["c"].zip ([Cell.text "v"].map normalizeCell))] ∧
      (process_sheet "B1.xlsx" (fun _ => false) ⟨["c"], [[Cell.text "v"]]⟩
          (process_sheet "A1.xlsx" (fun _ => false)
            ⟨["c"], [[Cell.text "v"]]⟩ []).1).1 =
        (process_sheet "A1.xlsx" (fun _ => false) ⟨["c"], [[Cell.text "v"]]⟩ []).1 ∧
      (process_sheet "B1.xlsx" (fun _ => false) ⟨["c"], [[Cell.text "v"]]⟩
          (process_sheet "A1.xlsx" (fun _ => false)
            ⟨["c"], [[Cell.text "v"]]⟩ []).1).2.2 = 0 :=
  dedup_across_files "A1.xlsx" "B1.xlsx" ["c"] [Cell.text "v"] [] (by rfl)

/-- C9.  A row whose hash equals the hash of an earlier row of the same
worksheet is skipped: it bumps only `rows_total`, inserting nothing and
leaving `rows_added` alone, because the duplicate check on the same
connection sees the not-yet-committed earlier insert. -/
theorem dup_row_within_sheet_skipped (fname : String) (xs ys : List Row)
    (rr : Row) (table : List StoredRow) (tot added : Nat)
    (hdup : ∃ r ∈ xs, calculate_row_hash r = calculate_row_hash rr) :
    processRows fname (fun _ => false) (xs ++ rr :: ys) table tot added =
      processRows fname (fun _ => false) ys
        (processRows fname (fun _ => false) xs table tot added).1
        ((processRows fname (fun _ => false) xs table tot added).2.1 + 1)
        (processRows fname (fun _ => false) xs table tot added).2.2 := by
  obtain ⟨r, hr, he⟩ := hdup
  rw [processRows_append]
  have hpres := processRows_hash_present fname xs table tot added r hr
  rw [he] at hpres
  show processRows fname (fun _ => false) (rr :: ys) _ _ _ = _
  simp only [processRows]
  rw [if_pos hpres]

/-- Witness for C9: the same one-column row appearing twice in one
worksheet. -/
theorem dup_row_within_sheet_skipped_witness :
    processRows "f.xlsx" (fun _ => false)
        ([[("a", "1")]] ++ [("a", "1")] :: []) [] 0 0 =
      processRows "f.xlsx" (fun _ => false) []
        (processRows "f.xlsx" (fun _ => false) [[("a", "1")]] [] 0 0).1
        ((processRows "f.xlsx" (fun _ => false) [[("a", "1")]] [] 0 0).2.1 + 1)
        (processRows "f.xlsx" (fun _ => false) [[("a", "1")]] [] 0 0).2.2 :=
  dup_row_within_sheet_skipped "f.xlsx" [[("a", "1")]] [] [("a", "1")] [] 0 0
    ⟨[("a", "1")], by decide, rfl⟩


/-- C6, counterexample.  A missing cell represented by Python `None` or
pandas `NaT` survives `astype(str).replace('nan','')` as the literal
text `"None"` / `"NaT"`, not as the empty string the claim requires. -/
theorem normalize_missing_cex :
    normalizeCell Cell.pynone = "None" ∧ normalizeCell Cell.naT = "NaT" ∧
      normalizeCell Cell.pynone ≠ "" ∧ normalizeCell Cell.naT ≠ "" := by decide

/-- C6, amended.  Every cell is coerced to text; a cell whose text form is
exactly `"nan"` (in particular a float-NaN missing cell) is stored and
hashed as the empty string, while `None` and `NaT` missing cells are
stored as the literal texts `"None"` and `"NaT"`; any other text value is
kept as is. -/
theorem normalize_cell_amended :
    normalizeCell Cell.nan = "" ∧ normalizeCell (Cell.text "nan") = "" ∧
      normalizeCell Cell.pynone = "None" ∧ normalizeCell Cell.naT = "NaT" ∧
      ∀ s, s ≠ "nan" → normalizeCell (Cell.text s) = s := by
  refine ⟨rfl, rfl, rfl, rfl, fun s hs => ?_⟩
  simp [normalizeCell, cellToStr, replaceNan, hs]

/-- Witness for C6 (amended) at the text cell `"1.5"`. -/
theorem normalize_cell_amended_witness :
    normalizeCell (Cell.text "1.5") = "1.5" :=
  normalize_cell_amended.2.2.2.2 "1.5" (by decide)

/-- C3.  The quoting slip of `create_table_for_sheet`: for an existing
table that already has the dynamic column `foo`, the code compares the
quoted form `"foo"` against the unquoted names from `PRAGMA table_info`,
so its computed new-column list is `[foo]`, not the empty set difference
`required − existing` the claim (and the code's own intent, "Находим
новые столбцы") describes; the attempted re-`ALTER` fails and is only
logged, leaving the schema — and hence the data — unchanged. -/
theorem create_table_requote_bug :
    new_columns (["foo"].map sanitize_column_name)
        (existingColumns ["id", "file_name", "row_hash", "foo"]) = ["foo"] ∧
      (["foo"].map sanitize_column_name).filter
        (fun col =>
          !(existingColumns ["id", "file_name", "row_hash", "foo"]).contains col) =
        [] ∧
      create_table_for_sheet_existing ["id", "file_name", "row_hash", "foo"]
        ["foo"] = ["id", "file_name", "row_hash", "foo"] := by decide

/-- C8, counterexample.  `execute_query` answers `none` alike for an
unknown table, an unknown column, and a known table/column with zero
matching rows: the "not found" signal is not distinguishable from the
zero-match result. -/
theorem query_not_found_cex :
    execute_query [("sheet_1", ⟨["id", "file_name", "row_hash", "a"],
        [[("id", "1"), ("file_name", "f"), ("row_hash", "h"), ("a", "1")]]⟩)]
        "sheet_1" "a" "zzz" true = none ∧
    execute_query [("sheet_1", ⟨["id", "file_name", "row_hash", "a"],
        [[("id", "1"), ("file_name", "f"), ("row_hash", "h"), ("a", "1")]]⟩)]
        "sheet_9" "a" "zzz" true = none ∧
    execute_query [("sheet_1", ⟨["id", "file_name", "row_hash", "a"],
        [[("id", "1"), ("file_name", "f"), ("row_hash", "h"), ("a", "1")]]⟩)]
        "sheet_1" "b" "zzz" true = none := by decide

/-- C8, amended.  `execute_query` returns the matching rows when at least
one row matches, and `none` in every other case — unknown table, unknown
column, and zero matches alike — so the not-found signal coincides with
the zero-match result (they differ only in printed messages). -/
theorem execute_query_cases (db : List (String × QTable)) (tn cn v : String)
    (ex : Bool) :
    (List.lookup tn db = none → execute_query db tn cn v ex = none) ∧
      (∀ t, List.lookup tn db = some t → cn ∉ t.cols →
        execute_query db tn cn v ex = none) ∧
      (∀ t, List.lookup tn db = some t → cn ∈ t.cols →
        t.rows.filter (rowMatches cn v ex) = [] →
        execute_query db tn cn v ex = none) ∧
      (∀ t, List.lookup tn db = some t → cn ∈ t.cols →
        t.rows.filter (rowMatches cn v ex) ≠ [] →
        execute_query db tn cn v ex =
          some (t.rows.filter (rowMatches cn v ex))) := by
  unfold execute_query
  refine ⟨fun h => by rw [h], fun t ht hc => ?_, fun t ht hc hf => ?_,
    fun t ht hc hf => ?_⟩
  · rw [ht]
    simp [hc]
  · rw [ht]
    simp [hc, hf]
  · rw [ht]
    simp only [hc, if_pos]
    rw [if_neg (by simpa [List.isEmpty_iff] using hf)]

/-- Witness for C8 (amended): a one-row table where the filter matches. -/
theorem execute_query_cases_witness :
    execute_query [("sheet_1", ⟨["id", "a"], [[("id", "1"), ("a", "1")]]⟩)]
        "sheet_1" "a" "1" true =
      some [[("id", "1"), ("a", "1")]] :=
  (execute_query_cases [("sheet_1", ⟨["id", "a"], [[("id", "1"), ("a", "1")]]⟩)]
      "sheet_1" "a" "1" true).2.2.2
    ⟨["id", "a"], [[("id", "1"), ("a", "1")]]⟩ rfl (by decide) (by decide)

end Crawler
